import Mathlib

set_option maxHeartbeats 1000000

/-!
Shallow embedding of `bin/clean.js`: the orphaned-asset cleanup script of the
srylius/vite package.  The script reads a Vite build manifest (JSON), computes
the list of referenced asset paths, lists the physical assets directory, and
deletes (or, under `--dry-run`, merely reports) every plain file whose name is
not a `/`-suffix of any referenced path.

The embedding models the JSON manifest as a tagged union over the two shapes
the script distinguishes (object values with `file`/`css`, or array values for
SSR manifests), the file system as an abstract record of query functions, and
`main` as a pure function from arguments and file system to an outcome
(console lines, deleted paths, exit kind).  JavaScript dynamic-typing effects
that the script can hit on mixed-shape manifests (an `undefined` `.file`, a
raw object surviving `flatMap`) are modelled explicitly by the `JAsset` type,
and the `TypeError` that `String.prototype.endsWith` would raise on such a
value is modelled by `Except`.
-/

namespace Clean

/-- A manifest value: either the SSR shape (a flat array of path strings) or
the normal shape (an object with a `file` string and an optional `css` array).
Mirrors the two shapes probed by `clean.js` lines 63 and 71-76. -/
inductive ManifestValue where
  | arr (paths : List String)
  | obj (file : String) (css : Option (List String))
deriving DecidableEq, Repr

/-- A parsed manifest: the key/value pairs in JavaScript object iteration
order (`Object.keys` order). -/
abbrev Manifest := List (String × ManifestValue)

/-- An element of the `manifestAssets` array built at lines 71-76.  In the
well-shaped cases every element is a string (`str`); on mixed-shape manifests
JavaScript instead produces `undefined` (`.file` of an array value) or leaves
a raw object in place (`flatMap` does not flatten non-arrays). -/
inductive JAsset where
  | str (s : String)
  | undef
  | rawObj (file : String) (css : Option (List String))
deriving DecidableEq, Repr

/-- The kind of a directory entry returned by `readdirSync` with
`withFileTypes: true`. -/
inductive EntryKind where
  | file
  | directory
  | other
deriving DecidableEq, Repr

/-- A directory entry (a `Dirent`): a name and a kind. -/
structure DirEnt where
  name : String
  kind : EntryKind
deriving DecidableEq, Repr

/-- `Dirent.isFile()`. -/
def isFile (e : DirEnt) : Bool :=
  match e.kind with
  | EntryKind.file => true
  | _ => false

/-- The command-line surface of the script: `--manifest=<v>` (present with its
verbatim value, possibly empty), `--ssr`, `--assets=<v>`, `--dry-run`,
`--quiet`. -/
structure Args where
  manifest : Option String
  ssr : Bool
  assets : Option String
  dryRun : Bool
  quiet : Bool
deriving DecidableEq, Repr

/-- The abstract file system the script queries: `existsSync`, reading and
parsing the manifest file (assumed readable and well-formed JSON at any path
the script actually reads), and `readdirSync` (`none` models the directory
being missing, in which case `readdirSync` throws). -/
structure FS where
  pathExists : String → Bool
  readManifest : String → Manifest
  readDir : String → Option (List DirEnt)

/-- Lines 37-39: the candidate manifest paths.  `argument('manifest')` is
tested for JavaScript truthiness, so an explicit empty value falls through to
the defaults. -/
def defaultManifestPaths (ssr : Bool) : List String :=
  if ssr then ["./bootstrap/ssr/ssr-manifest.json", "./bootstrap/ssr/manifest.json"]
  else ["./public/bundle/manifest.json"]

/-- Lines 37-39: `argument('manifest') ? [argument('manifest')] : defaults`. -/
def manifestPaths (a : Args) : List String :=
  match a.manifest with
  | some s => if s = "" then defaultManifestPaths a.ssr else [s]
  | none => defaultManifestPaths a.ssr

/-- Line 42: `manifestPaths.find(existsSync)`. -/
def foundManifestPath (a : Args) (fs : FS) : Option String :=
  (manifestPaths a).find? fs.pathExists

/-- Lines 60-63: `Array.isArray(manifest[Object.keys(manifest)[0]])`.  On an
empty manifest the probe reads `manifest[undefined]`, which is `undefined`,
hence not an array. -/
def isSsr (m : Manifest) : Bool :=
  match m with
  | [] => false
  | (_, ManifestValue.arr _) :: _ => true
  | (_, ManifestValue.obj _ _) :: _ => false

/-- `Array.prototype.flatMap` (one level of flattening). -/
def flatMapL {α β : Type} (f : α → List β) : List α → List β
  | [] => []
  | x :: xs => f x ++ flatMapL f xs

/-- Line 72, per value: in the SSR branch `flatMap` flattens an array value
into its string elements, while a non-array value stays in place as one raw
element. -/
def ssrExtract : ManifestValue → List JAsset
  | ManifestValue.arr ps => ps.map JAsset.str
  | ManifestValue.obj f c => [JAsset.rawObj f c]

/-- Lines 73-76, per value: `[...(v.css ?? []), v.file]`.  On an array value
`v.css` is `undefined` (so `?? []` yields `[]`) and `v.file` is `undefined`. -/
def objExtract : ManifestValue → List JAsset
  | ManifestValue.obj f c => (c.getD []).map JAsset.str ++ [JAsset.str f]
  | ManifestValue.arr _ => [JAsset.undef]

/-- Lines 71-76: the referenced-asset list, built from one shape probe applied
to the whole manifest. -/
def manifestAssets (m : Manifest) : List JAsset :=
  if isSsr m then flatMapL (fun kv => ssrExtract kv.2) m
  else flatMapL (fun kv => objExtract kv.2) m

/-- JavaScript `String.prototype.endsWith`: suffix test on the characters. -/
def endsWithJs (s suffix : String) : Bool :=
  suffix.toList.isSuffixOf s.toList

/-- `asset.endsWith(suffix)` at line 88: a `TypeError` (modelled as
`Except.error ()`) when the asset is not a string. -/
def assetEndsWith : JAsset → String → Except Unit Bool
  | JAsset.str s, suffix => Except.ok (endsWithJs s suffix)
  | _, _ => Except.error ()

/-- Line 88's `findIndex(asset => asset.endsWith(suffix)) !== -1`: scan the
assets in order until one matches; a thrown `TypeError` aborts the scan. -/
def findMatchJs : List JAsset → String → Except Unit Bool
  | [], _ => Except.ok false
  | a :: rest, suffix =>
    match assetEndsWith a suffix with
    | Except.error e => Except.error e
    | Except.ok true => Except.ok true
    | Except.ok false => findMatchJs rest suffix

/-- `Array.prototype.filter` with a predicate that may throw: the predicate is
evaluated on each element in order and the first exception aborts the whole
call. -/
def filterE {α : Type} (p : α → Except Unit Bool) : List α → Except Unit (List α)
  | [] => Except.ok []
  | x :: xs =>
    match p x with
    | Except.error e => Except.error e
    | Except.ok b =>
      match filterE p xs with
      | Except.error e => Except.error e
      | Except.ok rest => Except.ok (if b then x :: rest else rest)

/-- Lines 87-88: keep the plain files, then keep those for which no referenced
asset ends with `/` + the file's name. -/
def orphanedAssets (assets : List JAsset) (entries : List DirEnt) :
    Except Unit (List DirEnt) :=
  filterE
    (fun e => (findMatchJs assets ("/" ++ e.name)).map (fun b => !b))
    (entries.filter isFile)

/-- Helper for `dirname`: Node's scan from the end of the path (indices down
to 1), skipping trailing slashes, then the basename, stopping at the slash
before it.  The list is the reversed character list; `i` the current index. -/
def findDirEnd : List Char → Nat → Bool → Option Nat
  | [], _, _ => none
  | c :: rest, i, matchedSlash =>
    if i = 0 then none
    else if c = '/' then
      if matchedSlash then findDirEnd rest (i - 1) matchedSlash
      else some i
    else findDirEnd rest (i - 1) false

/-- Node.js `path.dirname` (POSIX). -/
def dirname (path : String) : String :=
  let cs := path.toList
  if cs.isEmpty then "." else
  let hasRoot := cs.head? = some '/'
  match findDirEnd cs.reverse (cs.length - 1) true with
  | none => if hasRoot then "/" else "."
  | some e => if hasRoot ∧ e = 1 then "//" else String.mk (cs.take e)

/-- Line 79: `argument('assets') ?? dirname(foundManifestPath) + '/assets'`
(`??` is nullish coalescing, so even an empty explicit value is used). -/
def resolvedAssetsPath (a : Args) (foundPath : String) : String :=
  match a.assets with
  | some x => x
  | none => dirname foundPath ++ "/assets"

/-- Lines 25-28: `info`/`error` are no-ops under `--quiet`. -/
def emit (quiet : Bool) (msg : String) : List String :=
  if quiet then [] else [msg]

/-- Lines 105-108: the per-orphan console line. -/
def orphanLine (dryRun : Bool) (path : String) : String :=
  if dryRun then "Orphaned asset [" ++ path ++ "] would be removed."
  else "Removing orphaned asset [" ++ path ++ "]."

/-- How an invocation of the script ends. -/
inductive ExitKind where
  | success
  | missingManifest
  | fsError
  | typeError
deriving DecidableEq, Repr

/-- The observable outcome of one invocation: the informational lines printed
to stdout, the lines printed to stderr, the paths passed to `unlinkSync` in
order, and how the process ends.  `missingManifest` is `process.exit(1)`;
`fsError` the uncaught `readdirSync` throw; `typeError` the uncaught
`endsWith` throw on a non-string asset. -/
structure Outcome where
  infos : List String
  errors : List String
  deleted : List String
  exit : ExitKind
deriving DecidableEq, Repr

/-- Lines 54-81: the informational lines printed between finding the manifest
and listing the assets directory. -/
def preambleInfos (a : Args) (fs : FS) (foundPath : String) : List String :=
  emit a.quiet ("Reading manifest [" ++ foundPath ++ "].")
  ++ emit a.quiet (if isSsr (fs.readManifest foundPath) then "SSR manifest found."
      else "Non-SSR manifest found.")
  ++ emit a.quiet ("Verify assets in [" ++ resolvedAssetsPath a foundPath ++ "].")

/-- Lines 91-116: the count line, the per-orphan lines and the `unlinkSync`
calls, as (informational lines, deleted paths in order). -/
def reportAndDelete (a : Args) (assetsPath : String) (orphans : List DirEnt) :
    List String × List String :=
  if orphans.length = 0 then
    (emit a.quiet "No ophaned assets found.", [])
  else
    (emit a.quiet
        (if orphans.length = 1 then
          "[" ++ toString orphans.length ++ "] orphaned asset found."
        else
          "[" ++ toString orphans.length ++ "] orphaned assets found.")
      ++ flatMapL
          (fun e => emit a.quiet (orphanLine a.dryRun (assetsPath ++ "/" ++ e.name)))
          orphans,
     if a.dryRun then []
     else orphans.map (fun e => assetsPath ++ "/" ++ e.name))

/-- Lines 35-120: the whole `main`, as a pure function of the arguments and
the file system.  `unlinkSync` is modelled as recording the path (the file was
just listed, so deletion is assumed to succeed). -/
def main (a : Args) (fs : FS) : Outcome :=
  match foundManifestPath a fs with
  | none =>
    { infos := [], errors := emit a.quiet "Unable to find manifest file.",
      deleted := [], exit := ExitKind.missingManifest }
  | some foundPath =>
    match fs.readDir (resolvedAssetsPath a foundPath) with
    | none =>
      { infos := preambleInfos a fs foundPath, errors := [], deleted := [],
        exit := ExitKind.fsError }
    | some entries =>
      match orphanedAssets (manifestAssets (fs.readManifest foundPath)) entries with
      | Except.error _ =>
        { infos := preambleInfos a fs foundPath, errors := [], deleted := [],
          exit := ExitKind.typeError }
      | Except.ok orphans =>
        { infos := preambleInfos a fs foundPath
            ++ (reportAndDelete a (resolvedAssetsPath a foundPath) orphans).1,
          errors := [],
          deleted := (reportAndDelete a (resolvedAssetsPath a foundPath) orphans).2,
          exit := ExitKind.success }

/-- The file system left behind after `unlinkSync` removed the named entries
of the assets directory: those paths no longer exist and the directory listing
no longer contains entries with those names. -/
def afterDeletions (fs : FS) (dir : String) (names : List String) : FS :=
  { pathExists := fun p =>
      if (names.map (fun n => dir ++ "/" ++ n)).contains p then false else fs.pathExists p,
    readManifest := fs.readManifest,
    readDir := fun p =>
      if p = dir then (fs.readDir p).map (fun es => es.filter (fun e => !(names.contains e.name)))
      else fs.readDir p }

/-- Every manifest value is the SSR (array) shape. -/
def allArr (m : Manifest) : Bool :=
  m.all (fun kv => match kv.2 with | ManifestValue.arr _ => true | _ => false)

/-- Every manifest value is the object shape. -/
def allObj (m : Manifest) : Bool :=
  m.all (fun kv => match kv.2 with | ManifestValue.obj _ _ => true | _ => false)

/-- The path strings an SSR-shape value contributes (spec wording: values are
flattened directly, no `file`/`css` extraction). -/
def valuePathsSsr : ManifestValue → List String
  | ManifestValue.arr ps => ps
  | ManifestValue.obj _ _ => []

/-- The path strings an object-shape value contributes (spec wording: each
entry of the optional `css` sequence, then the `file` string). -/
def valuePathsObj : ManifestValue → List String
  | ManifestValue.obj f c => c.getD [] ++ [f]
  | ManifestValue.arr _ => []

/-- Concrete mixed-shape manifest used to witness C2: first value is an
object, a later value is an array. -/
def mMixedC2 : Manifest :=
  [("app", ManifestValue.obj "assets/app.js" (some ["assets/app.css"])),
   ("srv", ManifestValue.arr ["assets/srv.js"])]

/-- Concrete SSR-shape manifest (the spec's own example) used to witness C3. -/
def mSsrC3 : Manifest :=
  [("entry", ManifestValue.arr ["assets/ssr-1.js", "assets/ssr-2.js"])]

/-- Concrete object-shape manifest (the spec's own example) used to witness C3. -/
def mObjC3 : Manifest :=
  [("a.js", ManifestValue.obj "assets/a-123.js" (some ["assets/a-123.css"]))]

/-- Concrete manifest for the C4 witness (the spec's worked example). -/
def manifestC4 : Manifest :=
  [("a.js", ManifestValue.obj "assets/a-123.js" (some ["assets/a-123.css"]))]

/-- Concrete directory listing for the C4 witness. -/
def entriesC4 : List DirEnt :=
  [⟨"a-123.js", EntryKind.file⟩, ⟨"a-123.css", EntryKind.file⟩,
   ⟨"orphan.png", EntryKind.file⟩]

/-- The one orphan of the C4 witness state. -/
def orphanC4 : DirEnt := ⟨"orphan.png", EntryKind.file⟩

/-- Concrete file system for the C4 witness: manifest at `m`, assets listed
from any directory. -/
def fsC4 : FS :=
  { pathExists := fun q => q == "m",
    readManifest := fun _ => manifestC4,
    readDir := fun _ => some entriesC4 }

/-- C4 witness arguments, dry-run. -/
def argsC4d : Args := ⟨some "m", false, some "./assets", true, false⟩

/-- C4 witness arguments, non-dry-run. -/
def argsC4n : Args := ⟨some "m", false, some "./assets", false, false⟩

/-- C6 witness arguments: all defaults. -/
def argsC6 : Args := ⟨none, false, none, false, false⟩

/-- C6 witness file system: nothing exists on disk. -/
def fsC6 : FS :=
  { pathExists := fun _ => false,
    readManifest := fun _ => [],
    readDir := fun _ => none }

/-- C7 witness arguments: explicit manifest, derived assets directory. -/
def argsC7 : Args := ⟨some "m", false, none, false, false⟩

/-- C7 witness arguments: explicit assets directory. -/
def argsC7e : Args := ⟨some "m", false, some "./dist", false, false⟩

/-- C7 witness file system: the manifest exists but no directory can be
listed. -/
def fsC7 : FS :=
  { pathExists := fun q => q == "m",
    readManifest := fun _ => [],
    readDir := fun _ => none }

/-- C9 witness arguments. -/
def argsC9 : Args := ⟨some "m", false, some "./assets", false, false⟩

/-- C9 witness directory listing: one plain file, one directory. -/
def entriesC9 : List DirEnt :=
  [⟨"x.js", EntryKind.file⟩, ⟨"sub", EntryKind.directory⟩]

/-- C9 witness file system: empty manifest at `m`. -/
def fsC9 : FS :=
  { pathExists := fun q => q == "m",
    readManifest := fun _ => [],
    readDir := fun _ => some entriesC9 }

/-- C10 witness arguments: `--manifest=` present with empty value. -/
def argsC10 : Args := ⟨some "", true, none, true, true⟩

/-- C10 witness file system. -/
def fsC10 : FS :=
  { pathExists := fun _ => false,
    readManifest := fun _ => [],
    readDir := fun _ => none }

/-- C5 witness arguments: explicit manifest and assets directory, not
dry-run. -/
def argsC5 : Args := ⟨some "m", false, some "./assets", false, false⟩

/-- C5 witness manifest: one entry, no `css`. -/
def manifestC5 : Manifest := [("a.js", ManifestValue.obj "assets/a-1.js" none)]

/-- C5 witness directory listing: one referenced file, one orphan. -/
def entriesC5 : List DirEnt :=
  [⟨"a-1.js", EntryKind.file⟩, ⟨"orphan.png", EntryKind.file⟩]

/-- The orphan of the C5 witness state. -/
def orphanC5 : DirEnt := ⟨"orphan.png", EntryKind.file⟩

/-- C5 witness file system. -/
def fsC5 : FS :=
  { pathExists := fun q => q == "m",
    readManifest := fun _ => manifestC5,
    readDir := fun _ => some entriesC5 }

/-- C8 witness arguments: explicit non-empty manifest path. -/
def argsC8x : Args := ⟨some "mx", false, none, false, false⟩

/-- C8 witness arguments: SSR defaults. -/
def argsC8s : Args := ⟨none, true, none, false, false⟩

/-- C8 witness arguments: normal defaults. -/
def argsC8n : Args := ⟨none, false, none, false, false⟩

/-- C8 witness file system: `mx` and the two lower-priority defaults exist,
the SSR first candidate does not. -/
def fsC8 : FS :=
  { pathExists := fun q =>
      q == "mx" || q == "./bootstrap/ssr/manifest.json" || q == "./public/bundle/manifest.json",
    readManifest := fun _ => [],
    readDir := fun _ => none }

/-- C8 witness file system on which nothing exists (explicit path absent). -/
def fsC8m : FS :=
  { pathExists := fun _ => false,
    readManifest := fun _ => [],
    readDir := fun _ => none }

/-! ## Helper lemmas -/

theorem filterE_ok_mem {α : Type} (p : α → Except Unit Bool) :
    ∀ {l r : List α}, filterE p l = Except.ok r →
      ∀ x, x ∈ r ↔ x ∈ l ∧ p x = Except.ok true := by
  intro l
  induction l with
  | nil =>
    intro r h x
    simp only [filterE, Except.ok.injEq] at h
    subst h
    simp
  | cons a l ih =>
    intro r h x
    simp only [filterE] at h
    cases hpa : p a with
    | error e => rw [hpa] at h; exact absurd h (by simp)
    | ok b =>
      rw [hpa] at h
      cases hrec : filterE p l with
      | error e => rw [hrec] at h; exact absurd h (by simp)
      | ok rest =>
        rw [hrec] at h
        simp only [Except.ok.injEq] at h
        subst h
        have hmem := ih hrec x
        by_cases hx : x = a
        · subst hx
          cases b <;> simp [hpa, hmem]
        · cases b <;> simp [hx, hmem, List.mem_cons]

theorem filterE_ok_of_forall {α : Type} (p : α → Except Unit Bool) (q : α → Bool) :
    ∀ l : List α, (∀ x ∈ l, p x = Except.ok (q x)) →
      filterE p l = Except.ok (l.filter q) := by
  intro l
  induction l with
  | nil => intro _; rfl
  | cons a l ih =>
    intro h
    have ha := h a (by simp)
    have hrest := ih (fun x hx => h x (by simp [hx]))
    simp only [filterE, ha, hrest, List.filter_cons]

theorem filterE_ok_evals {α : Type} (p : α → Except Unit Bool) :
    ∀ {l r : List α}, filterE p l = Except.ok r →
      ∀ x ∈ l, ∃ b, p x = Except.ok b := by
  intro l
  induction l with
  | nil => intro r _ x hx; exact absurd hx (by simp)
  | cons a l ih =>
    intro r h x hx
    simp only [filterE] at h
    cases hpa : p a with
    | error e => rw [hpa] at h; exact absurd h (by simp)
    | ok b =>
      rw [hpa] at h
      cases hrec : filterE p l with
      | error e => rw [hrec] at h; exact absurd h (by simp)
      | ok rest =>
        rcases List.mem_cons.mp hx with hx | hx
        · exact ⟨b, hx ▸ hpa⟩
        · exact ih hrec x hx

theorem filterE_ok_of_evals {α : Type} (p : α → Except Unit Bool) :
    ∀ l : List α, (∀ x ∈ l, ∃ b, p x = Except.ok b) →
      ∃ r, filterE p l = Except.ok r := by
  intro l
  induction l with
  | nil => intro _; exact ⟨[], rfl⟩
  | cons a l ih =>
    intro h
    obtain ⟨b, hb⟩ := h a (by simp)
    obtain ⟨r, hr⟩ := ih (fun x hx => h x (by simp [hx]))
    exact ⟨if b then a :: r else r, by simp [filterE, hb, hr]⟩

theorem findMatchJs_str (assets : List String) (suffix : String) :
    findMatchJs (assets.map JAsset.str) suffix =
      Except.ok (assets.any (fun s => endsWithJs s suffix)) := by
  induction assets with
  | nil => rfl
  | cons s rest ih =>
    simp only [List.map_cons, findMatchJs, assetEndsWith, List.any_cons]
    cases h : endsWithJs s suffix <;> simp [ih]

theorem mem_flatMapL {α β : Type} (f : α → List β) (l : List α) (b : β) :
    b ∈ flatMapL f l ↔ ∃ a ∈ l, b ∈ f a := by
  induction l with
  | nil => simp [flatMapL]
  | cons x xs ih => simp [flatMapL, ih]

theorem reportAndDelete_deleted (a : Args) (assetsPath : String) (orphans : List DirEnt) :
    (reportAndDelete a assetsPath orphans).2 =
      if a.dryRun then [] else orphans.map (fun e => assetsPath ++ "/" ++ e.name) := by
  by_cases h : orphans.length = 0
  · rw [List.length_eq_zero] at h
    subst h
    simp [reportAndDelete]
  · simp [reportAndDelete, h]

theorem main_success (a : Args) (fs : FS) (p : String) (entries orphans : List DirEnt)
    (hfound : foundManifestPath a fs = some p)
    (hdir : fs.readDir (resolvedAssetsPath a p) = some entries)
    (horph : orphanedAssets (manifestAssets (fs.readManifest p)) entries = Except.ok orphans) :
    main a fs =
      { infos := preambleInfos a fs p ++ (reportAndDelete a (resolvedAssetsPath a p) orphans).1,
        errors := [],
        deleted := (reportAndDelete a (resolvedAssetsPath a p) orphans).2,
        exit := ExitKind.success } := by
  simp only [main, hfound, hdir, horph]

theorem main_dryRun_deleted (a : Args) (fs : FS) (h : a.dryRun = true) :
    (main a fs).deleted = [] := by
  cases hf : foundManifestPath a fs with
  | none => simp [main, hf]
  | some p =>
    cases hd : fs.readDir (resolvedAssetsPath a p) with
    | none => simp [main, hf, hd]
    | some entries =>
      cases ho : orphanedAssets (manifestAssets (fs.readManifest p)) entries with
      | error e => simp [main, hf, hd, ho]
      | ok orphans => simp [main, hf, hd, ho, reportAndDelete_deleted, h]

/-! ## Claims -/

/-- C1.  A directory entry is classified as orphaned iff it is a plain file
and no referenced-path string ends with `/` followed by the file's name;
entries that are not plain files are never orphaned. -/
theorem orphan_iff_no_suffix_match (assets : List String) (entries : List DirEnt) :
    ∃ L, orphanedAssets (assets.map JAsset.str) entries = Except.ok L ∧
      ∀ e, e ∈ L ↔ e ∈ entries ∧ isFile e = true ∧
        ∀ s ∈ assets, endsWithJs s ("/" ++ e.name) = false := by
  have hok : orphanedAssets (assets.map JAsset.str) entries =
      Except.ok ((entries.filter isFile).filter
        (fun e => !(assets.any (fun s => endsWithJs s ("/" ++ e.name))))) := by
    apply filterE_ok_of_forall
    intro e _
    rw [findMatchJs_str]
    rfl
  refine ⟨_, hok, fun e => ?_⟩
  simp only [List.mem_filter, List.any_eq_true, Bool.not_eq_true', List.any_eq_false,
    Bool.not_eq_true, and_assoc]

/-- C2.  The server-rendering shape is detected iff the first value in
iteration order is a sequence, and the detected shape is applied uniformly:
with an object first value the whole manifest goes through the
`file`/`css`-extraction branch, whatever the later values are. -/
theorem shape_from_first_entry (m : Manifest) (k : String) (v : ManifestValue)
    (rest : Manifest) (h : m = (k, v) :: rest) :
    (isSsr m = true ↔ ∃ ps, v = ManifestValue.arr ps) ∧
    (∀ f c, v = ManifestValue.obj f c →
      isSsr m = false ∧
      manifestAssets m = flatMapL (fun kv => objExtract kv.2) m) := by
  subst h
  constructor
  · cases v with
    | arr ps => simp [isSsr]
    | obj f c => simp [isSsr]
  · rintro f c rfl
    refine ⟨rfl, ?_⟩
    simp [manifestAssets, isSsr]

/-- Witness for C2 at the concrete mixed manifest `mMixedC2`. -/
theorem shape_from_first_entry_witness :
    (isSsr mMixedC2 = true ↔
      ∃ ps, ManifestValue.obj "assets/app.js" (some ["assets/app.css"]) = ManifestValue.arr ps) ∧
    (∀ f c,
      ManifestValue.obj "assets/app.js" (some ["assets/app.css"]) = ManifestValue.obj f c →
      isSsr mMixedC2 = false ∧
      manifestAssets mMixedC2 = flatMapL (fun kv => objExtract kv.2) mMixedC2) :=
  shape_from_first_entry mMixedC2 "app"
    (ManifestValue.obj "assets/app.js" (some ["assets/app.css"]))
    [("srv", ManifestValue.arr ["assets/srv.js"])] rfl

theorem flatMapL_ssrExtract_of_allArr (m : Manifest) (ha : allArr m = true) :
    flatMapL (fun kv => ssrExtract kv.2) m =
      (flatMapL (fun kv => valuePathsSsr kv.2) m).map JAsset.str := by
  induction m with
  | nil => rfl
  | cons kv rest ih =>
    simp only [allArr, List.all_cons, Bool.and_eq_true] at ha
    obtain ⟨h1, h2⟩ := ha
    have hrest := ih h2
    cases hv : kv.2 with
    | arr ps =>
      show ssrExtract kv.2 ++ flatMapL (fun kv => ssrExtract kv.2) rest =
        (valuePathsSsr kv.2 ++ flatMapL (fun kv => valuePathsSsr kv.2) rest).map JAsset.str
      rw [List.map_append, hrest, hv]
      simp [ssrExtract, valuePathsSsr]
    | obj f c => rw [hv] at h1; exact absurd h1 (by simp)

theorem flatMapL_objExtract_of_allObj (m : Manifest) (ha : allObj m = true) :
    flatMapL (fun kv => objExtract kv.2) m =
      (flatMapL (fun kv => valuePathsObj kv.2) m).map JAsset.str := by
  induction m with
  | nil => rfl
  | cons kv rest ih =>
    simp only [allObj, List.all_cons, Bool.and_eq_true] at ha
    obtain ⟨h1, h2⟩ := ha
    have hrest := ih h2
    cases hv : kv.2 with
    | obj f c =>
      show objExtract kv.2 ++ flatMapL (fun kv => objExtract kv.2) rest =
        (valuePathsObj kv.2 ++ flatMapL (fun kv => valuePathsObj kv.2) rest).map JAsset.str
      rw [List.map_append, hrest, hv]
      simp [objExtract, valuePathsObj]
    | arr ps => rw [hv] at h1; exact absurd h1 (by simp)

/-- C3.  On a detected server-rendering manifest the referenced assets are all
values flattened directly (no `file`/`css` extraction); otherwise every
entry contributes its `css` elements (`[]` when missing) and its `file`
string. -/
theorem referenced_assets_by_shape (m : Manifest) :
    (isSsr m = true → allArr m = true →
      manifestAssets m = (flatMapL (fun kv => valuePathsSsr kv.2) m).map JAsset.str) ∧
    (isSsr m = false → allObj m = true →
      manifestAssets m = (flatMapL (fun kv => valuePathsObj kv.2) m).map JAsset.str) := by
  constructor
  · intro hs ha
    rw [manifestAssets, hs, if_pos rfl]
    exact flatMapL_ssrExtract_of_allArr m ha
  · intro hs ha
    rw [manifestAssets, hs]
    simp only [Bool.false_eq_true, if_false]
    exact flatMapL_objExtract_of_allObj m ha

/-- Witness for C3 at the spec's two concrete manifests. -/
theorem referenced_assets_by_shape_witness :
    manifestAssets mSsrC3 = (flatMapL (fun kv => valuePathsSsr kv.2) mSsrC3).map JAsset.str ∧
    manifestAssets mObjC3 = (flatMapL (fun kv => valuePathsObj kv.2) mObjC3).map JAsset.str :=
  ⟨(referenced_assets_by_shape mSsrC3).1 (by decide) (by decide),
   (referenced_assets_by_shape mObjC3).2 (by decide) (by decide)⟩

/-- C4.  Under `--dry-run` the deletion operation is never invoked, whatever
the state, and every orphan is reported (unless quiet) with the
simulated-removal phrasing; without `--dry-run` every detected orphan is
deleted and reported with the actual-removal phrasing. -/
theorem dry_run_frame (a : Args) (fs : FS) :
    (a.dryRun = true → (main a fs).deleted = []) ∧
    (∀ p entries orphans,
      foundManifestPath a fs = some p →
      fs.readDir (resolvedAssetsPath a p) = some entries →
      orphanedAssets (manifestAssets (fs.readManifest p)) entries = Except.ok orphans →
      (a.dryRun = false →
        (main a fs).deleted =
          orphans.map (fun e => resolvedAssetsPath a p ++ "/" ++ e.name)) ∧
      (a.quiet = false → ∀ e ∈ orphans,
        (if a.dryRun then
          "Orphaned asset [" ++ (resolvedAssetsPath a p ++ "/" ++ e.name) ++ "] would be removed."
        else
          "Removing orphaned asset [" ++ (resolvedAssetsPath a p ++ "/" ++ e.name) ++ "].")
          ∈ (main a fs).infos)) := by
  refine ⟨fun h => main_dryRun_deleted a fs h, ?_⟩
  intro p entries orphans hfound hdir horph
  have hm := main_success a fs p entries orphans hfound hdir horph
  constructor
  · intro hdry
    rw [hm]
    simp [reportAndDelete_deleted, hdry]
  · intro hq e he
    rw [hm]
    show orphanLine a.dryRun (resolvedAssetsPath a p ++ "/" ++ e.name) ∈
      preambleInfos a fs p ++ (reportAndDelete a (resolvedAssetsPath a p) orphans).1
    have hne : ¬ orphans.length = 0 := by
      intro h0
      rw [List.length_eq_zero] at h0
      subst h0
      exact absurd he (by simp)
    rw [reportAndDelete, if_neg hne]
    refine List.mem_append.mpr (Or.inr (List.mem_append.mpr (Or.inr ?_)))
    rw [mem_flatMapL]
    exact ⟨e, he, by simp [emit, hq]⟩

/-- Witness for C4 at the concrete one-orphan state `fsC4`, in both modes. -/
theorem dry_run_frame_witness :
    (main argsC4d fsC4).deleted = [] ∧
    (main argsC4n fsC4).deleted =
      [orphanC4].map (fun e => resolvedAssetsPath argsC4n "m" ++ "/" ++ e.name) ∧
    ("Orphaned asset [" ++ (resolvedAssetsPath argsC4d "m" ++ "/" ++ orphanC4.name)
        ++ "] would be removed.") ∈ (main argsC4d fsC4).infos ∧
    ("Removing orphaned asset [" ++ (resolvedAssetsPath argsC4n "m" ++ "/" ++ orphanC4.name)
        ++ "].") ∈ (main argsC4n fsC4).infos := by
  have hd := dry_run_frame argsC4d fsC4
  have hn := dry_run_frame argsC4n fsC4
  have hd2 := hd.2 "m" entriesC4 [orphanC4] (by decide) (by decide) (by rfl)
  have hn2 := hn.2 "m" entriesC4 [orphanC4] (by decide) (by decide) (by rfl)
  exact ⟨hd.1 rfl, (hn2.1 rfl), hd2.2 rfl orphanC4 (by decide), hn2.2 rfl orphanC4 (by decide)⟩

/-- C6.  When no candidate manifest path exists, the script reports to the
error channel (unless quiet) and exits with code 1; no deletion happens and
the outcome does not depend on any file-system operation other than the
existence checks (no directory listing, no manifest read). -/
theorem missing_manifest_exit (a : Args) (fs : FS)
    (h : ∀ p ∈ manifestPaths a, fs.pathExists p = false) :
    main a fs =
      { infos := [], errors := emit a.quiet "Unable to find manifest file.",
        deleted := [], exit := ExitKind.missingManifest } ∧
    (a.quiet = false → (main a fs).errors = ["Unable to find manifest file."]) ∧
    ∀ fs' : FS, fs'.pathExists = fs.pathExists → main a fs' = main a fs := by
  have hfound : foundManifestPath a fs = none := by
    rw [foundManifestPath, List.find?_eq_none]
    intro p hp
    simp [h p hp]
  have hmain : main a fs =
      { infos := [], errors := emit a.quiet "Unable to find manifest file.",
        deleted := [], exit := ExitKind.missingManifest } := by
    simp only [main, hfound]
  refine ⟨hmain, fun hq => by rw [hmain]; simp [emit, hq], fun fs' hfse => ?_⟩
  have hfound' : foundManifestPath a fs' = none := by
    rw [foundManifestPath, hfse]
    exact hfound
  calc main a fs' =
      { infos := [], errors := emit a.quiet "Unable to find manifest file.",
        deleted := [], exit := ExitKind.missingManifest } := by simp only [main, hfound']
    _ = main a fs := hmain.symm

/-- Witness for C6: no candidate exists, the script exits 1 with the error
line and deletes nothing. -/
theorem missing_manifest_exit_witness :
    main argsC6 fsC6 =
      { infos := [], errors := ["Unable to find manifest file."],
        deleted := [], exit := ExitKind.missingManifest } ∧
    (main argsC6 fsC6).errors = ["Unable to find manifest file."] := by
  have h := missing_manifest_exit argsC6 fsC6 (by decide)
  exact ⟨h.1, h.2.1 rfl⟩

/-- C7.  The assets directory is the explicit one when given, else the
manifest's containing directory joined with the fixed name `assets`; it is
never existence-checked before listing (`fs.pathExists` is unconstrained at
that path), and when the listing fails the error propagates uncaught: no
deletion, `fsError` exit. -/
theorem assets_dir_resolution (a : Args) (fs : FS) (p : String)
    (hfound : foundManifestPath a fs = some p)
    (hdir : fs.readDir (resolvedAssetsPath a p) = none) :
    (∀ x, a.assets = some x → resolvedAssetsPath a p = x) ∧
    (a.assets = none → resolvedAssetsPath a p = dirname p ++ "/assets") ∧
    main a fs =
      { infos := preambleInfos a fs p, errors := [], deleted := [],
        exit := ExitKind.fsError } := by
  refine ⟨?_, ?_, ?_⟩
  · intro x hx
    simp [resolvedAssetsPath, hx]
  · intro hx
    simp [resolvedAssetsPath, hx]
  · simp only [main, hfound, hdir]

/-- Witness for C7: derived assets directory `./assets` from manifest `m`,
missing directory gives the uncaught listing failure; explicit `./dist` is
used verbatim. -/
theorem assets_dir_resolution_witness :
    resolvedAssetsPath argsC7 "m" = dirname "m" ++ "/assets" ∧
    main argsC7 fsC7 =
      { infos := preambleInfos argsC7 fsC7 "m", errors := [], deleted := [],
        exit := ExitKind.fsError } ∧
    resolvedAssetsPath argsC7e "m" = "./dist" := by
  have h := assets_dir_resolution argsC7 fsC7 "m" (by decide) rfl
  have he := assets_dir_resolution argsC7e fsC7 "m" (by decide) rfl
  exact ⟨h.2.1 rfl, h.2.2, he.1 "./dist" rfl⟩

/-- C9.  The empty manifest is detected as non-SSR, yields an empty referenced
asset set, and therefore every plain file of the assets directory is orphaned
and (without `--dry-run`) deleted. -/
theorem empty_manifest_all_orphans (a : Args) (fs : FS) (p : String) (entries : List DirEnt)
    (hfound : foundManifestPath a fs = some p)
    (hempty : fs.readManifest p = [])
    (hdir : fs.readDir (resolvedAssetsPath a p) = some entries) :
    isSsr (fs.readManifest p) = false ∧
    manifestAssets (fs.readManifest p) = [] ∧
    orphanedAssets (manifestAssets (fs.readManifest p)) entries =
      Except.ok (entries.filter isFile) ∧
    (a.dryRun = false →
      (main a fs).deleted =
        (entries.filter isFile).map (fun e => resolvedAssetsPath a p ++ "/" ++ e.name)) := by
  have horph : orphanedAssets (manifestAssets (fs.readManifest p)) entries =
      Except.ok (entries.filter isFile) := by
    rw [hempty, orphanedAssets]
    have hall := filterE_ok_of_forall
      (fun e : DirEnt => (findMatchJs (manifestAssets []) ("/" ++ e.name)).map (fun b => !b))
      (fun _ => true) (entries.filter isFile) (fun x _ => rfl)
    rw [hall]
    simp
  refine ⟨by rw [hempty]; rfl, by rw [hempty]; rfl, horph, fun hdry => ?_⟩
  have hm := main_success a fs p entries (entries.filter isFile) hfound hdir horph
  rw [hm]
  simp [reportAndDelete_deleted, hdry]

/-- Witness for C9 at a two-entry directory (one plain file, one
subdirectory) and the empty manifest. -/
theorem empty_manifest_all_orphans_witness :
    isSsr (fsC9.readManifest "m") = false ∧
    manifestAssets (fsC9.readManifest "m") = [] ∧
    orphanedAssets (manifestAssets (fsC9.readManifest "m")) entriesC9 =
      Except.ok (entriesC9.filter isFile) ∧
    (main argsC9 fsC9).deleted =
      (entriesC9.filter isFile).map (fun e => resolvedAssetsPath argsC9 "m" ++ "/" ++ e.name) := by
  have h := empty_manifest_all_orphans argsC9 fsC9 "m" entriesC9 (by decide) rfl rfl
  exact ⟨h.1, h.2.1, h.2.2.1, h.2.2.2 rfl⟩

/-- C10.  `--manifest=` with an empty value behaves exactly as if no explicit
manifest path had been given: the default candidate list of the selected mode
is used, and the whole run is unchanged. -/
theorem empty_manifest_arg_fallback (a : Args) (h : a.manifest = some "") :
    manifestPaths a = defaultManifestPaths a.ssr ∧
    ∀ fs : FS, main a fs = main { a with manifest := none } fs := by
  have hp : manifestPaths a = manifestPaths { a with manifest := none } := by
    simp [manifestPaths, h]
  refine ⟨by simp [manifestPaths, h], fun fs => ?_⟩
  unfold main foundManifestPath
  rw [hp]
  rfl

/-- Witness for C10: `--manifest= --ssr --dry-run --quiet` runs exactly as
without the `--manifest=` argument. -/
theorem empty_manifest_arg_fallback_witness :
    manifestPaths argsC10 = defaultManifestPaths true ∧
    main argsC10 fsC10 = main ⟨none, true, none, true, true⟩ fsC10 := by
  have h := empty_manifest_arg_fallback argsC10 rfl
  exact ⟨h.1, h.2 fsC10⟩

/-- Counterexample to C8 as stated: with `--manifest=` the explicit manifest
argument is present (value the empty string), yet the script does not use it
verbatim — it falls back to the default candidate list. -/
theorem manifest_path_verbatim_cex :
    Args.manifest ⟨some "", false, none, false, false⟩ = some "" ∧
    manifestPaths ⟨some "", false, none, false, false⟩ = ["./public/bundle/manifest.json"] ∧
    manifestPaths ⟨some "", false, none, false, false⟩ ≠ [""] := by
  refine ⟨rfl, rfl, ?_⟩
  decide

/-- C8 (amended).  A non-empty explicit manifest path is used verbatim,
failing (exit 1) if absent; with no explicit path — or an explicit empty
value, which falls back — SSR mode tries `./bootstrap/ssr/ssr-manifest.json`
then `./bootstrap/ssr/manifest.json`, and normal mode the single
`./public/bundle/manifest.json`, using the first candidate that exists. -/
theorem manifest_path_resolution (a : Args) (fs : FS) :
    (∀ s, a.manifest = some s → s ≠ "" →
      manifestPaths a = [s] ∧
      foundManifestPath a fs = (if fs.pathExists s = true then some s else none) ∧
      (fs.pathExists s = false → (main a fs).exit = ExitKind.missingManifest)) ∧
    ((a.manifest = none ∨ a.manifest = some "") → a.ssr = true →
      manifestPaths a = ["./bootstrap/ssr/ssr-manifest.json", "./bootstrap/ssr/manifest.json"] ∧
      foundManifestPath a fs =
        (if fs.pathExists "./bootstrap/ssr/ssr-manifest.json" = true then
          some "./bootstrap/ssr/ssr-manifest.json"
        else if fs.pathExists "./bootstrap/ssr/manifest.json" = true then
          some "./bootstrap/ssr/manifest.json"
        else none)) ∧
    ((a.manifest = none ∨ a.manifest = some "") → a.ssr = false →
      manifestPaths a = ["./public/bundle/manifest.json"] ∧
      foundManifestPath a fs =
        (if fs.pathExists "./public/bundle/manifest.json" = true then
          some "./public/bundle/manifest.json"
        else none)) := by
  refine ⟨?_, ?_, ?_⟩
  · intro s hs hne
    have hp : manifestPaths a = [s] := by simp [manifestPaths, hs, hne]
    have hf : foundManifestPath a fs = (if fs.pathExists s = true then some s else none) := by
      rw [foundManifestPath, hp]
      cases hb : fs.pathExists s <;> simp [List.find?, hb]
    refine ⟨hp, hf, fun hex => ?_⟩
    have hfound : foundManifestPath a fs = none := by rw [hf, hex]; simp
    simp [main, hfound]
  · intro hm hssr
    have hp : manifestPaths a =
        ["./bootstrap/ssr/ssr-manifest.json", "./bootstrap/ssr/manifest.json"] := by
      rcases hm with h | h <;> simp [manifestPaths, h, defaultManifestPaths, hssr]
    refine ⟨hp, ?_⟩
    rw [foundManifestPath, hp]
    cases hb1 : fs.pathExists "./bootstrap/ssr/ssr-manifest.json" <;>
      cases hb2 : fs.pathExists "./bootstrap/ssr/manifest.json" <;>
        simp [List.find?, hb1, hb2]
  · intro hm hssr
    have hp : manifestPaths a = ["./public/bundle/manifest.json"] := by
      rcases hm with h | h <;> simp [manifestPaths, h, defaultManifestPaths, hssr]
    refine ⟨hp, ?_⟩
    rw [foundManifestPath, hp]
    cases hb : fs.pathExists "./public/bundle/manifest.json" <;> simp [List.find?, hb]

/-- Witness for the amended C8: explicit non-empty path; SSR priority order
(first candidate absent, second used); normal default; and exit 1 when the
explicit path is absent. -/
theorem manifest_path_resolution_witness :
    manifestPaths argsC8x = ["mx"] ∧
    foundManifestPath argsC8x fsC8 = (if fsC8.pathExists "mx" = true then some "mx" else none) ∧
    manifestPaths argsC8s = ["./bootstrap/ssr/ssr-manifest.json", "./bootstrap/ssr/manifest.json"] ∧
    foundManifestPath argsC8s fsC8 =
      (if fsC8.pathExists "./bootstrap/ssr/ssr-manifest.json" = true then
        some "./bootstrap/ssr/ssr-manifest.json"
      else if fsC8.pathExists "./bootstrap/ssr/manifest.json" = true then
        some "./bootstrap/ssr/manifest.json"
      else none) ∧
    manifestPaths argsC8n = ["./public/bundle/manifest.json"] ∧
    (main argsC8x fsC8m).exit = ExitKind.missingManifest := by
  have hx := (manifest_path_resolution argsC8x fsC8).1 "mx" rfl (by decide)
  have hs := (manifest_path_resolution argsC8s fsC8).2.1 (Or.inl rfl) rfl
  have hn := (manifest_path_resolution argsC8n fsC8).2.2 (Or.inl rfl) rfl
  have hm := ((manifest_path_resolution argsC8x fsC8m).1 "mx" rfl (by decide)).2.2 rfl
  exact ⟨hx.1, hx.2.1, hs.1, hs.2, hn.1, hm⟩

/-- C5.  In non-dry-run mode the run deletes exactly the orphans, and a second
run against the same manifest and the directory state left behind finds zero
orphans and deletes nothing. -/
theorem cleanup_idempotent (a : Args) (fs : FS) (p : String)
    (entries orphans : List DirEnt)
    (hdry : a.dryRun = false)
    (hfound : foundManifestPath a fs = some p)
    (hdir : fs.readDir (resolvedAssetsPath a p) = some entries)
    (horph : orphanedAssets (manifestAssets (fs.readManifest p)) entries = Except.ok orphans)
    (hfound2 : foundManifestPath a
      (afterDeletions fs (resolvedAssetsPath a p) (orphans.map DirEnt.name)) = some p) :
    (main a fs).deleted = orphans.map (fun e => resolvedAssetsPath a p ++ "/" ++ e.name) ∧
    (afterDeletions fs (resolvedAssetsPath a p) (orphans.map DirEnt.name)).readDir
        (resolvedAssetsPath a p) =
      some (entries.filter (fun e => !((orphans.map DirEnt.name).contains e.name))) ∧
    orphanedAssets (manifestAssets (fs.readManifest p))
        (entries.filter (fun e => !((orphans.map DirEnt.name).contains e.name))) =
      Except.ok [] ∧
    (main a (afterDeletions fs (resolvedAssetsPath a p) (orphans.map DirEnt.name))).deleted
      = [] := by
  have hm := main_success a fs p entries orphans hfound hdir horph
  have h1 : (main a fs).deleted =
      orphans.map (fun e => resolvedAssetsPath a p ++ "/" ++ e.name) := by
    rw [hm]
    simp [reportAndDelete_deleted, hdry]
  have h2 : (afterDeletions fs (resolvedAssetsPath a p) (orphans.map DirEnt.name)).readDir
      (resolvedAssetsPath a p) =
      some (entries.filter (fun e => !((orphans.map DirEnt.name).contains e.name))) := by
    simp [afterDeletions, hdir]
  have hsub : ∀ x ∈ (entries.filter
        (fun e => !((orphans.map DirEnt.name).contains e.name))).filter isFile,
      x ∈ entries.filter isFile := by
    intro x hx
    rw [List.mem_filter] at hx ⊢
    rw [List.mem_filter] at hx
    exact ⟨hx.1.1, hx.2⟩
  have hevals := filterE_ok_evals _ horph
  obtain ⟨r2, hr2⟩ := filterE_ok_of_evals
    (fun e => (findMatchJs (manifestAssets (fs.readManifest p)) ("/" ++ e.name)).map (fun b => !b))
    ((entries.filter (fun e => !((orphans.map DirEnt.name).contains e.name))).filter isFile)
    (fun x hx => hevals x (hsub x hx))
  have hr2nil : r2 = [] := by
    rw [List.eq_nil_iff_forall_not_mem]
    intro x hx
    have hx2 := (filterE_ok_mem _ hr2 x).mp hx
    have hxorph : x ∈ orphans :=
      (filterE_ok_mem _ horph x).mpr ⟨hsub x hx2.1, hx2.2⟩
    have hxname : x.name ∈ orphans.map DirEnt.name := List.mem_map_of_mem DirEnt.name hxorph
    have hxfil := (List.mem_filter.mp hx2.1).1
    rw [List.mem_filter] at hxfil
    have hcont : x.name ∉ orphans.map DirEnt.name := by simpa using hxfil.2
    exact hcont hxname
  have h3 : orphanedAssets (manifestAssets (fs.readManifest p))
      (entries.filter (fun e => !((orphans.map DirEnt.name).contains e.name))) =
      Except.ok [] := by
    rw [orphanedAssets, hr2, hr2nil]
  refine ⟨h1, h2, h3, ?_⟩
  have hm2 := main_success a
    (afterDeletions fs (resolvedAssetsPath a p) (orphans.map DirEnt.name)) p
    (entries.filter (fun e => !((orphans.map DirEnt.name).contains e.name))) []
    hfound2 h2 h3
  rw [hm2]
  simp [reportAndDelete_deleted]

/-- Witness for C5 at the concrete one-orphan state `fsC5`. -/
theorem cleanup_idempotent_witness :
    (main argsC5 fsC5).deleted =
      [orphanC5].map (fun e => resolvedAssetsPath argsC5 "m" ++ "/" ++ e.name) ∧
    (afterDeletions fsC5 (resolvedAssetsPath argsC5 "m") ([orphanC5].map DirEnt.name)).readDir
        (resolvedAssetsPath argsC5 "m") =
      some (entriesC5.filter (fun e => !(([orphanC5].map DirEnt.name).contains e.name))) ∧
    orphanedAssets (manifestAssets (fsC5.readManifest "m"))
        (entriesC5.filter (fun e => !(([orphanC5].map DirEnt.name).contains e.name))) =
      Except.ok [] ∧
    (main argsC5 (afterDeletions fsC5 (resolvedAssetsPath argsC5 "m")
        ([orphanC5].map DirEnt.name))).deleted = [] :=
  cleanup_idempotent argsC5 fsC5 "m" entriesC5 [orphanC5]
    rfl (by decide) rfl (by rfl) (by decide)

end Clean
